import Mathlib

/-!
Verification of the travel-records cleaning and query pipeline.

The development shallowly embeds the two Python source files:

* `clean_travel_data.py` — the record normalizer: deduplication,
  default-filling, date coercion, range filtering and sorting of the
  traveler / travel tables (a pandas script; its column operations are
  modelled row-wise on lists of records).
* `travel_gui_app.py` — the CSV loaders with their schema checks and the
  `show_travels` display routine (lookup by name, per-traveler trip
  filter, per-trip duration series for the bar chart), modelled as pure
  state transitions on an application-state record.

Strings are modelled as lists of Unicode code points (`PyStr := List Nat`)
so that Python's `str.title` / `str.capitalize` can be given executable
ASCII-faithful definitions.  Missing CSV cells (`NaN`) are `Option.none`.
Raw date cells are a three-way sum (`missing`, unparseable text, or a
calendar date represented by its day number) abstracting
`pd.to_datetime(errors="coerce")`.
-/

/-! ### Strings and cells -/

/-- A Python string, as a list of Unicode code points. -/
def PyStr : Type := List Nat

instance : DecidableEq PyStr := inferInstanceAs (DecidableEq (List Nat))

instance : BEq PyStr := inferInstanceAs (BEq (List Nat))

instance : LawfulBEq PyStr := inferInstanceAs (LawfulBEq (List Nat))

instance : Repr PyStr := inferInstanceAs (Repr (List Nat))

instance : Inhabited PyStr := ⟨([] : List Nat)⟩

/-- Convenience: build a `PyStr` from a Lean string literal. -/
def str (s : String) : PyStr := s.data.map Char.toNat

/-- ASCII model of Python's `str.isalpha` on one code point. -/
def pyIsAlpha (c : Nat) : Bool := (65 ≤ c && c ≤ 90) || (97 ≤ c && c ≤ 122)

/-- ASCII model of uppercasing one code point. -/
def pyToUpper (c : Nat) : Nat := if 97 ≤ c && c ≤ 122 then c - 32 else c

/-- ASCII model of lowercasing one code point. -/
def pyToLower (c : Nat) : Nat := if 65 ≤ c && c ≤ 90 then c + 32 else c

/-- Worker for `pyTitle`: the flag records whether the previous source
character was alphabetic (inside a word). -/
def pyTitleAux : Bool → List Nat → List Nat
  | _, [] => []
  | prev, c :: cs => (if prev then pyToLower c else pyToUpper c) :: pyTitleAux (pyIsAlpha c) cs

/-- Model of Python's `str.title` (pandas `.str.title()`): the first letter
of each maximal alphabetic run is uppercased, later letters lowercased. -/
def pyTitle (s : PyStr) : PyStr := pyTitleAux false s

/-- Model of Python's `str.capitalize` (pandas `.str.capitalize()`): first
character uppercased, all remaining characters lowercased. -/
def pyCapitalize : PyStr → PyStr
  | [] => []
  | c :: cs => pyToUpper c :: cs.map pyToLower

/-- A raw date cell: absent (`NaN`), unparseable text, or a calendar date
already identified by its day number.  `pd.to_datetime(errors="coerce")`
sends the first two to `NaT` and keeps the third. -/
inductive DateField where
  | missing : DateField
  | bad : PyStr → DateField
  | date : Int → DateField
deriving DecidableEq, Repr

/-- `pd.to_datetime(errors="coerce")`: parseable dates survive, everything
else becomes `NaT` (modelled by `missing`). -/
def coerceDate : DateField → DateField
  | .date d => .date d
  | _ => .missing

/-- Whether a coerced cell holds an actual date (non-`NaT`). -/
def DateField.isDate : DateField → Bool
  | .date _ => true
  | _ => false

/-- The day number of a date cell (junk value 0 for non-dates; only used
after `dropna` has removed non-dates). -/
def DateField.toVal : DateField → Int
  | .date d => d
  | _ => 0

/-! ### Record Normalizer (`clean_travel_data.py`)

The pandas script operates column-wise on two dataframes; the embedding
models each dataframe as a list of row records and each column operation
as the corresponding row-wise map / filter, in the script's order.
Identifier columns (`traveler_id`, `travel_id`) are modelled as always
present numbers (the input files carry them as required keys); the other
text cells are `Option PyStr` with `none` for `NaN`. -/

/-- A raw traveler row as read by `pd.read_csv("travelers.csv")`. -/
structure TravelerRow where
  traveler_id : Nat
  name : Option PyStr
  email : Option PyStr
  phone : Option PyStr
  passport_number : Option PyStr
deriving DecidableEq, Repr

/-- A travel (trip) row as read by `pd.read_csv("travels.csv")`; the date
cells start raw and are replaced in place by the pipeline, as pandas
overwrites the columns. -/
structure TravelRow where
  travel_id : Nat
  traveler_id : Nat
  destination : Option PyStr
  purpose : Option PyStr
  departure_date : DateField
  return_date : DateField
deriving DecidableEq, Repr

/-- `DataFrame.drop_duplicates(subset=key, keep="first")`: scan left to
right keeping a row iff its key has not been seen before.  pandas treats
`NaN` keys as equal to each other, which the `Option` key values mirror. -/
def dropDuplicatesAux {α β : Type} [DecidableEq β] (key : α → β) :
    List β → List α → List α
  | _, [] => []
  | seen, r :: rs =>
    if key r ∈ seen then dropDuplicatesAux key seen rs
    else r :: dropDuplicatesAux key (key r :: seen) rs

/-- `DataFrame.drop_duplicates(subset=key)` with the default `keep="first"`. -/
def drop_duplicates {α β : Type} [DecidableEq β] (key : α → β) (rows : List α) : List α :=
  dropDuplicatesAux key [] rows

/-- The dedup key of the travelers cleaning step: `['traveler_id', 'email']`. -/
def travelerKey (r : TravelerRow) : Nat × Option PyStr := (r.traveler_id, r.email)

/-- The fill step of the travelers cleaning: `fillna` of name / email /
phone / passport, with `.str.title()` applied to the (filled) name column. -/
def fillTraveler (r : TravelerRow) : TravelerRow :=
  { r with
    name := some (pyTitle (r.name.getD (str "Unknown"))),
    email := some (r.email.getD (str "unknown@example.com")),
    phone := some (r.phone.getD (str "Unknown")),
    passport_number := some (r.passport_number.getD (str "Unknown")) }

/-- `normalize_travelers`: the travelers half of `clean_travel_data.py` —
drop duplicate (traveler_id, email) rows keeping the first, then fill
missing text cells and title-case the name. -/
def normalize_travelers (rows : List TravelerRow) : List TravelerRow :=
  (drop_duplicates travelerKey rows).map fillTraveler

/-- The fill-and-coerce step of the travels cleaning: `fillna`+`title` on
destination, `fillna`+`capitalize` on purpose, `pd.to_datetime(...,
errors="coerce")` on both date columns.  (The GUI's `load_travels_csv`
performs the same four column operations, so it reuses this.) -/
def fillTravel (r : TravelRow) : TravelRow :=
  { r with
    destination := some (pyTitle (r.destination.getD (str "Unknown"))),
    purpose := some (pyCapitalize (r.purpose.getD (str "Unknown"))),
    departure_date := coerceDate r.departure_date,
    return_date := coerceDate r.return_date }

/-- Insert one element into a sorted list, before the first element `b`
with `le a b`.  Equal elements already in the list therefore stay ahead of
the inserted (later-in-input) one: the sort below is stable. -/
def insertSorted {α : Type} (le : α → α → Bool) (a : α) : List α → List α
  | [] => [a]
  | b :: bs => if le a b then a :: b :: bs else b :: insertSorted le a bs

/-- A stable comparison sort, modelling `DataFrame.sort_values` on several
columns (pandas uses `np.lexsort` there, which is stable).  Structural
recursion keeps it kernel-computable. -/
def insertionSort {α : Type} (le : α → α → Bool) : List α → List α
  | [] => []
  | a :: as => insertSorted le a (insertionSort le as)

/-- The comparison used by `travels.sort_values(by=['traveler_id',
'departure_date'])`: lexicographic, both ascending. -/
def travelLe (a b : TravelRow) : Bool :=
  a.traveler_id < b.traveler_id ||
    (a.traveler_id == b.traveler_id && a.departure_date.toVal ≤ b.departure_date.toVal)

/-- The travels pipeline up to (not including) the final sort:
dedup on `travel_id`, fill/coerce, `dropna` on the date columns,
filter `return_date >= departure_date`. -/
def travelsPreSort (rows : List TravelRow) : List TravelRow :=
  (((drop_duplicates TravelRow.travel_id rows).map fillTravel).filter
      (fun r => r.departure_date.isDate && r.return_date.isDate)).filter
    (fun r => r.departure_date.toVal ≤ r.return_date.toVal)

/-- `normalize_trips`: the travels half of `clean_travel_data.py` —
dedup on `travel_id` (keep first), fill text defaults, coerce dates,
drop rows with `NaT` dates, drop inverted date ranges, and stable-sort by
(traveler_id, departure_date). -/
def normalize_trips (rows : List TravelRow) : List TravelRow :=
  insertionSort travelLe (travelsPreSort rows)

/-! ### GUI layer (`travel_gui_app.py`)

The Tkinter application is modelled as pure transitions on an
`AppState` record holding the two module-level dataframes, the name
dropdown, the rows shown in `frame_records` and the bar-chart data of
`current_fig`.  Message boxes are not state; branches that only show a
message and `return` leave the state unchanged. -/

/-- Result of a CSV load: either success or the schema-check failure
(`messagebox.showerror("...must contain columns...")`). -/
inductive LoadResult where
  | ok : LoadResult
  | schemaError : LoadResult
deriving DecidableEq, Repr

/-- A travelers CSV as read by `pd.read_csv`: its header and its rows. -/
structure TravelersFile where
  cols : List PyStr
  rows : List TravelerRow

/-- A travels CSV as read by `pd.read_csv`: its header and its rows. -/
structure TravelsFile where
  cols : List PyStr
  rows : List TravelRow

/-- The GUI's global state: the two dataframes, the dropdown values, the
current selection, the displayed records and the current chart data. -/
structure AppState where
  travelers : List TravelerRow
  travels : List TravelRow
  combo_values : List (Option PyStr)
  selected : PyStr
  records : List TravelRow
  chart : Option (List (Option PyStr × Int))
deriving DecidableEq, Repr

/-- `{"traveler_id", "name"}` — the columns `load_travelers_csv` requires. -/
def travelersRequiredCols : List PyStr := [str "traveler_id", str "name"]

/-- The six columns `load_travels_csv` requires. -/
def travelsRequiredCols : List PyStr :=
  [str "travel_id", str "traveler_id", str "destination",
   str "departure_date", str "return_date", str "purpose"]

/-- The travelers cleaning done by the GUI loader: only the name column is
filled and title-cased. -/
def guiCleanTraveler (r : TravelerRow) : TravelerRow :=
  { r with name := some (pyTitle (r.name.getD (str "Unknown"))) }

/-- `load_travelers_csv`: require `{"traveler_id", "name"}` in the header;
on failure reset the travelers dataframe to empty and abort; on success
clean the name column and refresh the dropdown. -/
def load_travelers_csv (f : TravelersFile) (s : AppState) : AppState × LoadResult :=
  if travelersRequiredCols.all (fun c => f.cols.contains c) then
    let cleaned := f.rows.map guiCleanTraveler
    ({ s with travelers := cleaned, combo_values := cleaned.map (·.name) }, .ok)
  else
    ({ s with travelers := [] }, .schemaError)

/-- `load_travels_csv`: require all six columns; on failure reset the
travels dataframe to empty and abort; on success fill destination /
purpose, coerce the two date columns and drop rows with `NaT` in either
(the GUI loader has no duplicate, range or sort step). -/
def load_travels_csv (f : TravelsFile) (s : AppState) : AppState × LoadResult :=
  if travelsRequiredCols.all (fun c => f.cols.contains c) then
    let cleaned := (f.rows.map fillTravel).filter
      (fun r => r.departure_date.isDate && r.return_date.isDate)
    ({ s with travels := cleaned }, .ok)
  else
    ({ s with travels := [] }, .schemaError)

/-- The traveler lookup of `show_travels`:
`travelers[travelers["name"] == selected_name]`, empty meaning "not
found", then `.values[0]` taking the first matching row. -/
def find_traveler_by_name (ts : List TravelerRow) (n : PyStr) : Option TravelerRow :=
  (ts.filter (fun r => r.name == some n)).head?

/-- The trips query of `show_travels`:
`travels[travels["traveler_id"] == t_id]` — the subsequence of rows whose
traveler id matches. -/
def trips_for_traveler (tr : List TravelRow) (tid : Nat) : List TravelRow :=
  tr.filter (fun r => r.traveler_id == tid)

/-- The bar-chart data of `show_travels`: the destination column paired
positionally with `(return_date - departure_date).dt.days`
(`ax.bar(tt["destination"], durations)`). -/
def trip_durations (tr : List TravelRow) : List (Option PyStr × Int) :=
  List.zip (tr.map (·.destination))
    (tr.map (fun r => r.return_date.toVal - r.departure_date.toVal))

/-- `show_travels`: warn and return on missing data or empty selection;
show an error and return when the name lookup fails; clear the record and
chart panes when the traveler has no trips; otherwise display the
traveler's trips and chart their durations. -/
def show_travels (s : AppState) : AppState :=
  if s.travelers = [] ∨ s.travels = [] then s
  else if s.selected = ([] : List Nat) then s
  else
    match find_traveler_by_name s.travelers s.selected with
    | none => s
    | some t =>
      if trips_for_traveler s.travels t.traveler_id = [] then
        { s with records := [], chart := none }
      else
        { s with records := trips_for_traveler s.travels t.traveler_id,
                 chart := some (trip_durations (trips_for_traveler s.travels t.traveler_id)) }

/-! ### Spec-side comparator for the aggregation claim

The design document describes `duration_by_destination` as a group-by-sum
ordered descending by total.  The following definition renders those
words so the chart data the code actually produces can be compared with
them; it is deliberately written from the spec, not from the source. -/

/-- Lexicographic ≤ on code-point lists (for the spec's tie-break by
destination name ascending). -/
def strLe : List Nat → List Nat → Bool
  | [], _ => true
  | _ :: _, [] => false
  | a :: as, b :: bs => a < b || (a == b && strLe as bs)

/-- Extension of `strLe` to nullable destination cells. -/
def optStrLe : Option PyStr → Option PyStr → Bool
  | none, _ => true
  | some _, none => false
  | some a, some b => strLe a b

/-- Written from the spec's words (design §4.2): "group by destination,
sum durations; order results descending by total duration, ties broken by
destination name ascending."  Used only to compare against the chart data
the source computes. -/
def duration_by_destination_spec (tr : List TravelRow) : List (Option PyStr × Int) :=
  let dests := drop_duplicates (fun d => d) (tr.map (·.destination))
  let totals := dests.map (fun d =>
    (d, ((tr.filter (fun r => r.destination == d)).map
        (fun r => r.return_date.toVal - r.departure_date.toVal)).sum))
  insertionSort (fun p q => q.2 < p.2 || (p.2 == q.2 && optStrLe p.1 q.1)) totals

/-! ### Concrete inputs used by witnesses and counterexamples -/

/-- Two raw traveler rows with the same id, one with a missing email and
one whose literal email equals the fill default. -/
def exTravelersDup : List TravelerRow :=
  [⟨1, some (str "ann lee"), none, some (str "555-0100"), none⟩,
   ⟨1, some (str "ann lee"), some (str "unknown@example.com"), some (str "555-0199"), none⟩]

/-- Two already-cleaned trips to the same destination (durations 4 and 2
days), echoing the spec's Paris scenario. -/
def exParisTrips : List TravelRow :=
  [⟨1, 1, some (str "Paris"), some (str "Holiday"), .date 60, .date 64⟩,
   ⟨2, 1, some (str "Paris"), some (str "Work"), .date 31, .date 33⟩]

/-- Three raw trips: one valid, one with an inverted date range, one with
an unparseable departure date. -/
def exMixedTrips : List TravelRow :=
  [⟨1, 1, some (str "paris"), none, .date 10, .date 14⟩,
   ⟨2, 1, none, some (str "WORK"), .date 5, .date 2⟩,
   ⟨3, 2, none, none, .bad (str "not-a-date"), .date 7⟩]

/-- A blank application state. -/
def exState : AppState := ⟨[], [], [], [], [], none⟩

/-- A state holding two travelers who share the name "Ann" and the Paris
trips, with "Ann" selected in the dropdown. -/
def exDupNameState : AppState :=
  ⟨[⟨1, some (str "Ann"), none, none, none⟩, ⟨2, some (str "Ann"), none, none, none⟩],
   exParisTrips, [], str "Ann", [], none⟩

/-! ## Theorems -/

/-! ### Character and string lemmas -/

theorem pyToUpper_pyToUpper (c : Nat) : pyToUpper (pyToUpper c) = pyToUpper c := by
  simp only [pyToUpper, Bool.and_eq_true, decide_eq_true_eq]
  by_cases h : 97 ≤ c ∧ c ≤ 122
  · rw [if_pos h, if_neg (by omega)]
  · rw [if_neg h, if_neg h]

theorem pyToLower_pyToLower (c : Nat) : pyToLower (pyToLower c) = pyToLower c := by
  simp only [pyToLower, Bool.and_eq_true, decide_eq_true_eq]
  by_cases h : 65 ≤ c ∧ c ≤ 90
  · rw [if_pos h, if_neg (by omega)]
  · rw [if_neg h, if_neg h]

theorem pyIsAlpha_pyToUpper (c : Nat) : pyIsAlpha (pyToUpper c) = pyIsAlpha c := by
  rw [Bool.eq_iff_iff]
  simp only [pyIsAlpha, pyToUpper, Bool.and_eq_true, decide_eq_true_eq, Bool.or_eq_true]
  by_cases h : 97 ≤ c ∧ c ≤ 122
  · rw [if_pos h]; omega
  · rw [if_neg h]

theorem pyIsAlpha_pyToLower (c : Nat) : pyIsAlpha (pyToLower c) = pyIsAlpha c := by
  rw [Bool.eq_iff_iff]
  simp only [pyIsAlpha, pyToLower, Bool.and_eq_true, decide_eq_true_eq, Bool.or_eq_true]
  by_cases h : 65 ≤ c ∧ c ≤ 90
  · rw [if_pos h]; omega
  · rw [if_neg h]

theorem pyTitleAux_pyTitleAux (s : List Nat) :
    ∀ p, pyTitleAux p (pyTitleAux p s) = pyTitleAux p s := by
  induction s with
  | nil => intro p; rfl
  | cons c cs ih =>
    intro p
    cases p with
    | false => simp [pyTitleAux, pyIsAlpha_pyToUpper, pyToUpper_pyToUpper, ih]
    | true => simp [pyTitleAux, pyIsAlpha_pyToLower, pyToLower_pyToLower, ih]

theorem pyTitle_pyTitle (s : PyStr) : pyTitle (pyTitle s) = pyTitle s :=
  pyTitleAux_pyTitleAux s false

theorem pyCapitalize_pyCapitalize (s : PyStr) :
    pyCapitalize (pyCapitalize s) = pyCapitalize s := by
  cases s with
  | nil => rfl
  | cons c cs =>
    simp only [pyCapitalize, pyToUpper_pyToUpper, List.map_map, Function.comp_def]
    exact congrArg _ (List.map_congr_left fun x _ => pyToLower_pyToLower x)

/-! ### Deduplication lemmas -/

theorem dropDuplicatesAux_sublist {α β : Type} [DecidableEq β] (key : α → β) :
    ∀ (seen : List β) (l : List α), (dropDuplicatesAux key seen l).Sublist l := by
  intro seen l
  induction l generalizing seen with
  | nil => exact List.Sublist.refl _
  | cons r rs ih =>
    simp only [dropDuplicatesAux]
    split
    · exact (ih seen).cons r
    · exact (ih (key r :: seen)).cons₂ r

theorem dropDuplicatesAux_key_notMem {α β : Type} [DecidableEq β] (key : α → β) :
    ∀ (seen : List β) (l : List α) (r : α),
      r ∈ dropDuplicatesAux key seen l → key r ∉ seen := by
  intro seen l
  induction l generalizing seen with
  | nil => intro r h; cases h
  | cons a as ih =>
    intro r h
    simp only [dropDuplicatesAux] at h
    split at h
    · exact ih seen r h
    · rcases List.mem_cons.mp h with rfl | h'
      · assumption
      · intro hseen
        exact ih (key a :: seen) r h' (List.mem_cons_of_mem _ hseen)

theorem dropDuplicatesAux_pairwise_ne {α β : Type} [DecidableEq β] (key : α → β) :
    ∀ (seen : List β) (l : List α),
      (dropDuplicatesAux key seen l).Pairwise (fun a b => key a ≠ key b) := by
  intro seen l
  induction l generalizing seen with
  | nil => exact List.Pairwise.nil
  | cons a as ih =>
    simp only [dropDuplicatesAux]
    split
    · exact ih seen
    · refine List.Pairwise.cons ?_ (ih (key a :: seen))
      intro b hb
      have := dropDuplicatesAux_key_notMem key (key a :: seen) as b hb
      intro hkey
      exact this (hkey ▸ List.mem_cons_self _ _)

theorem drop_duplicates_pairwise_ne {α β : Type} [DecidableEq β] (key : α → β)
    (l : List α) : (drop_duplicates key l).Pairwise (fun a b => key a ≠ key b) :=
  dropDuplicatesAux_pairwise_ne key [] l

theorem dropDuplicatesAux_filter_key {α β : Type} [DecidableEq β] (key : α → β) (k : β) :
    ∀ (seen : List β) (l : List α),
      (dropDuplicatesAux key seen l).filter (fun r => decide (key r = k)) =
        if k ∈ seen then [] else (l.filter (fun r => decide (key r = k))).take 1 := by
  intro seen l
  induction l generalizing seen with
  | nil => simp [dropDuplicatesAux]
  | cons a as ih =>
    simp only [dropDuplicatesAux]
    by_cases hs : key a ∈ seen
    · rw [if_pos hs, ih seen]
      by_cases hk : k ∈ seen
      · rw [if_pos hk, if_pos hk]
      · rw [if_neg hk, if_neg hk]
        have hak : ¬ key a = k := fun h => hk (h ▸ hs)
        simp [List.filter_cons, hak]
    · rw [if_neg hs]
      by_cases hak : key a = k
      · subst hak
        simp [List.filter_cons, ih (key a :: seen), hs]
      · have hmem : (k ∈ key a :: seen) ↔ (k ∈ seen) := by
          rw [List.mem_cons]
          exact or_iff_right (fun h => hak h.symm)
        simp [List.filter_cons, hak, ih (key a :: seen), hmem]

theorem drop_duplicates_filter_key {α β : Type} [DecidableEq β] (key : α → β) (k : β)
    (l : List α) :
    (drop_duplicates key l).filter (fun r => decide (key r = k)) =
      (l.filter (fun r => decide (key r = k))).take 1 := by
  rw [drop_duplicates, dropDuplicatesAux_filter_key key k [] l, if_neg (List.not_mem_nil k)]

theorem dropDuplicatesAux_eq_self {α β : Type} [DecidableEq β] (key : α → β) :
    ∀ (seen : List β) (l : List α), (∀ r ∈ l, key r ∉ seen) →
      l.Pairwise (fun a b => key a ≠ key b) → dropDuplicatesAux key seen l = l := by
  intro seen l
  induction l generalizing seen with
  | nil => intro _ _; rfl
  | cons a as ih =>
    intro hseen hpw
    simp only [dropDuplicatesAux]
    rw [if_neg (hseen a (List.mem_cons_self _ _))]
    refine congrArg _ (ih (key a :: seen) ?_ hpw.of_cons)
    intro r hr
    simp only [List.mem_cons]
    rintro (h | h)
    · exact (List.pairwise_cons.mp hpw).1 r hr h.symm
    · exact hseen r (List.mem_cons_of_mem _ hr) h

theorem drop_duplicates_eq_self {α β : Type} [DecidableEq β] (key : α → β)
    (l : List α) (h : l.Pairwise (fun a b => key a ≠ key b)) :
    drop_duplicates key l = l :=
  dropDuplicatesAux_eq_self key [] l (fun _ _ => List.not_mem_nil _) h

/-! ### Stable sort lemmas -/

theorem perm_insertSorted {α : Type} (le : α → α → Bool) (a : α) :
    ∀ l : List α, List.Perm (insertSorted le a l) (a :: l) := by
  intro l
  induction l with
  | nil => exact List.Perm.refl _
  | cons b bs ih =>
    simp only [insertSorted]
    split
    · exact List.Perm.refl _
    · exact (ih.cons b).trans (List.Perm.swap a b bs)

theorem perm_insertionSort {α : Type} (le : α → α → Bool) :
    ∀ l : List α, List.Perm (insertionSort le l) l := by
  intro l
  induction l with
  | nil => exact List.Perm.refl _
  | cons a as ih =>
    exact (perm_insertSorted le a (insertionSort le as)).trans (ih.cons a)

theorem mem_insertSorted {α : Type} (le : α → α → Bool) (a x : α) (l : List α) :
    x ∈ insertSorted le a l ↔ x = a ∨ x ∈ l := by
  rw [(perm_insertSorted le a l).mem_iff, List.mem_cons]

theorem sorted_insertSorted {α : Type} (le : α → α → Bool)
    (trans : ∀ x y z, le x y = true → le y z = true → le x z = true)
    (total : ∀ x y, le x y = true ∨ le y x = true) (a : α) :
    ∀ l : List α, l.Pairwise (fun x y => le x y = true) →
      (insertSorted le a l).Pairwise (fun x y => le x y = true) := by
  intro l
  induction l with
  | nil => intro _; exact List.pairwise_singleton _ a
  | cons b bs ih =>
    intro h
    rcases List.pairwise_cons.mp h with ⟨hb, hbs⟩
    simp only [insertSorted]
    split
    · rename_i hab
      refine List.pairwise_cons.mpr ⟨?_, h⟩
      intro c hc
      rcases List.mem_cons.mp hc with rfl | hc'
      · exact hab
      · exact trans a b c hab (hb c hc')
    · rename_i hab
      refine List.pairwise_cons.mpr ⟨?_, ih hbs⟩
      intro c hc
      rcases (mem_insertSorted le a c bs).mp hc with rfl | hc'
      · exact (total c b).resolve_left (by simpa using hab)
      · exact hb c hc'

theorem sorted_insertionSort {α : Type} (le : α → α → Bool)
    (trans : ∀ x y z, le x y = true → le y z = true → le x z = true)
    (total : ∀ x y, le x y = true ∨ le y x = true) :
    ∀ l : List α, (insertionSort le l).Pairwise (fun x y => le x y = true) := by
  intro l
  induction l with
  | nil => exact List.Pairwise.nil
  | cons a as ih => exact sorted_insertSorted le trans total a _ ih

theorem insertSorted_of_le_head {α : Type} (le : α → α → Bool) (a : α) :
    ∀ l : List α, (∀ b ∈ l, le a b = true) → insertSorted le a l = a :: l := by
  intro l hl
  cases l with
  | nil => rfl
  | cons b bs =>
    simp only [insertSorted]
    rw [if_pos (hl b (List.mem_cons_self _ _))]

theorem insertionSort_of_sorted {α : Type} (le : α → α → Bool) :
    ∀ l : List α, l.Pairwise (fun x y => le x y = true) → insertionSort le l = l := by
  intro l
  induction l with
  | nil => intro _; rfl
  | cons a as ih =>
    intro h
    rcases List.pairwise_cons.mp h with ⟨ha, has⟩
    simp only [insertionSort]
    rw [ih has, insertSorted_of_le_head le a as ha]

theorem filter_insertSorted_pos {α : Type} (le : α → α → Bool) (p : α → Bool) (a : α)
    (hpa : p a = true) (hle : ∀ b, p b = true → le a b = true) :
    ∀ l : List α, (insertSorted le a l).filter p = a :: l.filter p := by
  intro l
  induction l with
  | nil => simp [insertSorted, hpa]
  | cons b bs ih =>
    simp only [insertSorted]
    split
    · simp [List.filter_cons, hpa]
    · rename_i hab
      have hpb : ¬ p b = true := fun hb => hab (hle b hb)
      simp [List.filter_cons, hpb, ih]

theorem filter_insertSorted_neg {α : Type} (le : α → α → Bool) (p : α → Bool) (a : α)
    (hpa : ¬ p a = true) :
    ∀ l : List α, (insertSorted le a l).filter p = l.filter p := by
  intro l
  induction l with
  | nil => simp [insertSorted, hpa]
  | cons b bs ih =>
    simp only [insertSorted]
    split
    · simp [List.filter_cons, hpa]
    · simp [List.filter_cons, ih]

theorem filter_insertionSort {α : Type} (le : α → α → Bool) (p : α → Bool)
    (hequiv : ∀ x y, p x = true → p y = true → le x y = true) :
    ∀ l : List α, (insertionSort le l).filter p = l.filter p := by
  intro l
  induction l with
  | nil => rfl
  | cons a as ih =>
    simp only [insertionSort]
    by_cases hpa : p a = true
    · rw [filter_insertSorted_pos le p a hpa (fun b hb => hequiv a b hpa hb), ih,
        List.filter_cons_of_pos hpa]
    · rw [filter_insertSorted_neg le p a hpa, ih, List.filter_cons_of_neg (by simpa using hpa)]

/-! ### Pipeline helper lemmas -/

theorem coerceDate_coerceDate (d : DateField) : coerceDate (coerceDate d) = coerceDate d := by
  cases d <;> rfl

theorem fillTravel_fillTravel (r : TravelRow) : fillTravel (fillTravel r) = fillTravel r := by
  simp only [fillTravel, Option.getD_some, pyTitle_pyTitle, pyCapitalize_pyCapitalize,
    coerceDate_coerceDate]

theorem fillTraveler_fillTraveler (r : TravelerRow) :
    fillTraveler (fillTraveler r) = fillTraveler r := by
  simp only [fillTraveler, Option.getD_some, pyTitle_pyTitle]

theorem travelLe_trans (x y z : TravelRow) :
    travelLe x y = true → travelLe y z = true → travelLe x z = true := by
  simp only [travelLe, Bool.or_eq_true, Bool.and_eq_true, decide_eq_true_eq, beq_iff_eq]
  omega

theorem travelLe_total (x y : TravelRow) : travelLe x y = true ∨ travelLe y x = true := by
  simp only [travelLe, Bool.or_eq_true, Bool.and_eq_true, decide_eq_true_eq, beq_iff_eq]
  omega

theorem mem_normalize_trips_iff (X : List TravelRow) (r : TravelRow) :
    r ∈ normalize_trips X ↔ r ∈ travelsPreSort X :=
  (perm_insertionSort travelLe (travelsPreSort X)).mem_iff

theorem mem_travelsPreSort_valid (X : List TravelRow) (r : TravelRow)
    (hr : r ∈ travelsPreSort X) :
    r.departure_date.isDate = true ∧ r.return_date.isDate = true ∧
      r.departure_date.toVal ≤ r.return_date.toVal := by
  simp only [travelsPreSort, List.mem_filter, Bool.and_eq_true, decide_eq_true_eq] at hr
  exact ⟨hr.1.2.1, hr.1.2.2, hr.2⟩

theorem mem_travelsPreSort_shape (X : List TravelRow) (r : TravelRow)
    (hr : r ∈ travelsPreSort X) : fillTravel r = r := by
  simp only [travelsPreSort, List.mem_filter] at hr
  rcases List.mem_map.mp hr.1.1 with ⟨r₀, _, rfl⟩
  exact fillTravel_fillTravel r₀

theorem mem_normalize_travelers_shape (X : List TravelerRow) (r : TravelerRow)
    (hr : r ∈ normalize_travelers X) : fillTraveler r = r := by
  rcases List.mem_map.mp hr with ⟨r₀, _, rfl⟩
  exact fillTraveler_fillTraveler r₀

theorem travelsPreSort_travel_id_pairwise (X : List TravelRow) :
    (travelsPreSort X).Pairwise (fun a b => a.travel_id ≠ b.travel_id) := by
  have h1 : ((drop_duplicates TravelRow.travel_id X).map fillTravel).Pairwise
      (fun a b => a.travel_id ≠ b.travel_id) :=
    List.pairwise_map.mpr (drop_duplicates_pairwise_ne TravelRow.travel_id X)
  exact List.Pairwise.sublist ((List.filter_sublist _).trans (List.filter_sublist _)) h1

theorem normalize_trips_travel_id_pairwise (X : List TravelRow) :
    (normalize_trips X).Pairwise (fun a b => a.travel_id ≠ b.travel_id) := by
  refine ((perm_insertionSort travelLe (travelsPreSort X)).pairwise_iff ?_).mpr
    (travelsPreSort_travel_id_pairwise X)
  intro a b h h'
  exact h h'.symm

theorem normalize_trips_sorted (X : List TravelRow) :
    (normalize_trips X).Pairwise (fun a b => travelLe a b = true) :=
  sorted_insertionSort travelLe travelLe_trans travelLe_total (travelsPreSort X)

/-! ### Idempotence helpers -/

theorem normalize_trips_idem (X : List TravelRow) :
    normalize_trips (normalize_trips X) = normalize_trips X := by
  have hvalid : ∀ r ∈ normalize_trips X,
      r.departure_date.isDate = true ∧ r.return_date.isDate = true ∧
        r.departure_date.toVal ≤ r.return_date.toVal :=
    fun r hr => mem_travelsPreSort_valid X r ((mem_normalize_trips_iff X r).mp hr)
  have hdedup : drop_duplicates TravelRow.travel_id (normalize_trips X) = normalize_trips X :=
    drop_duplicates_eq_self _ _ (normalize_trips_travel_id_pairwise X)
  have hmap : (normalize_trips X).map fillTravel = normalize_trips X := by
    conv_rhs => rw [← List.map_id (normalize_trips X)]
    exact List.map_congr_left
      (fun r hr => mem_travelsPreSort_shape X r ((mem_normalize_trips_iff X r).mp hr))
  have hfil1 : (normalize_trips X).filter
      (fun r => r.departure_date.isDate && r.return_date.isDate) = normalize_trips X := by
    refine List.filter_eq_self.mpr (fun r hr => ?_)
    rcases hvalid r hr with ⟨h1, h2, -⟩
    rw [h1, h2]
    rfl
  have hfil2 : (normalize_trips X).filter
      (fun r => r.departure_date.toVal ≤ r.return_date.toVal) = normalize_trips X := by
    refine List.filter_eq_self.mpr (fun r hr => ?_)
    rcases hvalid r hr with ⟨-, -, h3⟩
    simpa using h3
  have hsort : insertionSort travelLe (normalize_trips X) = normalize_trips X :=
    insertionSort_of_sorted travelLe (normalize_trips X) (normalize_trips_sorted X)
  show insertionSort travelLe (travelsPreSort (normalize_trips X)) = normalize_trips X
  rw [travelsPreSort, hdedup, hmap, hfil1, hfil2, hsort]

theorem normalize_travelers_idem_of_unique (X : List TravelerRow)
    (h : (normalize_travelers X).Pairwise (fun a b => travelerKey a ≠ travelerKey b)) :
    normalize_travelers (normalize_travelers X) = normalize_travelers X := by
  have hdedup : drop_duplicates travelerKey (normalize_travelers X) = normalize_travelers X :=
    drop_duplicates_eq_self _ _ h
  have hmap : (normalize_travelers X).map fillTraveler = normalize_travelers X := by
    conv_rhs => rw [← List.map_id (normalize_travelers X)]
    exact List.map_congr_left (fun r hr => mem_normalize_travelers_shape X r hr)
  show (drop_duplicates travelerKey (normalize_travelers X)).map fillTraveler =
    normalize_travelers X
  rw [hdedup, hmap]

/-! ### Claim C1 -/

/-- C1 (corrected): the uniqueness the spec asserts for the *output* of
`normalize_travelers` fails, because duplicates are dropped before missing
emails are filled: a row with a missing email and a row whose literal
email equals the fill default survive deduplication and then collide.  At
the concrete input `exTravelersDup` the output has two rows with the same
(traveler_id, email) pair. -/
theorem normalize_travelers_output_key_clash :
    ¬ (normalize_travelers exTravelersDup).Pairwise
        (fun a b => (a.traveler_id, a.email) ≠ (b.traveler_id, b.email)) := by
  decide

/-- C1 (amended): deduplication keeps exactly the first input row of each
raw (traveler_id, email) pair — `normalize_travelers` is that dedup
followed by the fill step, so uniqueness holds for the raw keys (though
not necessarily for the filled ones); the output of `normalize_trips` has
pairwise-distinct travel_ids, and its dedup step likewise keeps exactly
the first row of each travel_id. -/
theorem normalize_dedup_keeps_first (trs : List TravelerRow) (tvs : List TravelRow)
    (k : Nat × Option PyStr) (tid : Nat) :
    (normalize_travelers trs = (drop_duplicates travelerKey trs).map fillTraveler)
    ∧ ((drop_duplicates travelerKey trs).filter (fun r => decide (travelerKey r = k)) =
        (trs.filter (fun r => decide (travelerKey r = k))).take 1)
    ∧ ((normalize_trips tvs).Pairwise (fun a b => a.travel_id ≠ b.travel_id))
    ∧ ((drop_duplicates TravelRow.travel_id tvs).filter (fun r => decide (r.travel_id = tid)) =
        (tvs.filter (fun r => decide (r.travel_id = tid))).take 1) :=
  ⟨rfl, drop_duplicates_filter_key travelerKey k trs,
    normalize_trips_travel_id_pairwise tvs,
    drop_duplicates_filter_key TravelRow.travel_id tid tvs⟩

/-! ### Claim C2 -/

/-- C2 (corrected): idempotence fails for `normalize_travelers` — on
`exTravelersDup` the first pass leaves two rows with equal filled
(traveler_id, email) keys, so a second pass deduplicates them and the
results differ. -/
theorem normalize_travelers_not_idempotent :
    normalize_travelers (normalize_travelers exTravelersDup) ≠
      normalize_travelers exTravelersDup := by
  decide

/-- C2 (amended): `normalize_trips` is idempotent for every raw input;
`normalize_travelers` is idempotent for every raw input whose single-pass
output still has pairwise-distinct (traveler_id, email) pairs (the only
way this can fail is a missing email filled to a default that collides
with another row, as in the counterexample). -/
theorem normalize_idempotent_amended :
    (∀ X : List TravelRow, normalize_trips (normalize_trips X) = normalize_trips X)
    ∧ (∀ X : List TravelerRow,
        (normalize_travelers X).Pairwise (fun a b => travelerKey a ≠ travelerKey b) →
        normalize_travelers (normalize_travelers X) = normalize_travelers X) :=
  ⟨normalize_trips_idem, normalize_travelers_idem_of_unique⟩

/-- Witness for C2's amended theorem at concrete inputs. -/
theorem normalize_idempotent_amended_witness :
    normalize_trips (normalize_trips exMixedTrips) = normalize_trips exMixedTrips
    ∧ normalize_travelers (normalize_travelers [⟨1, none, none, none, none⟩]) =
        normalize_travelers [⟨1, none, none, none, none⟩] :=
  ⟨normalize_idempotent_amended.1 exMixedTrips,
    normalize_idempotent_amended.2 [⟨1, none, none, none, none⟩] (by decide)⟩

/-! ### Claim C3 -/

/-- C3 (confirmed): the output of `normalize_trips` is non-decreasing in
(traveler_id, departure_date) — traveler_id primary, departure_date
secondary, both ascending — and the sort is stable: for every key value,
the rows carrying that key appear in the same order as in the (order
preserving) pre-sort pipeline, i.e. in original input order. -/
theorem normalize_trips_sorted_stable (X : List TravelRow) (k : Nat × Int) :
    ((normalize_trips X).Pairwise (fun a b =>
        a.traveler_id < b.traveler_id ∨
          (a.traveler_id = b.traveler_id ∧
            a.departure_date.toVal ≤ b.departure_date.toVal)))
    ∧ ((normalize_trips X).filter
          (fun r => decide ((r.traveler_id, r.departure_date.toVal) = k)) =
        (travelsPreSort X).filter
          (fun r => decide ((r.traveler_id, r.departure_date.toVal) = k))) := by
  constructor
  · refine (normalize_trips_sorted X).imp ?_
    intro a b h
    simp only [travelLe, Bool.or_eq_true, Bool.and_eq_true, decide_eq_true_eq,
      beq_iff_eq] at h
    omega
  · refine filter_insertionSort travelLe _ ?_ (travelsPreSort X)
    intro x y hx hy
    simp only [decide_eq_true_eq] at hx hy
    have h := hx.trans hy.symm
    rw [Prod.mk.injEq] at h
    simp [travelLe, h.1, h.2]

/-! ### Claim C4 -/

/-- C4 (confirmed): every row of `normalize_trips` output carries two
actually-parsed dates with return_date ≥ departure_date; rows failing
either condition are dropped, so every bar-chart duration computed over
the cleaned output is non-negative. -/
theorem normalize_trips_dates_valid (X : List TravelRow) :
    (∀ r ∈ normalize_trips X,
        (∃ d, r.departure_date = DateField.date d) ∧
        (∃ d, r.return_date = DateField.date d) ∧
        r.departure_date.toVal ≤ r.return_date.toVal)
    ∧ (∀ p ∈ trip_durations (normalize_trips X), 0 ≤ p.2) := by
  have hdate : ∀ f : DateField, f.isDate = true → ∃ d, f = DateField.date d := by
    intro f hf
    cases f with
    | date d => exact ⟨d, rfl⟩
    | missing => simp [DateField.isDate] at hf
    | bad s => simp [DateField.isDate] at hf
  have hval : ∀ r ∈ normalize_trips X,
      r.departure_date.isDate = true ∧ r.return_date.isDate = true ∧
        r.departure_date.toVal ≤ r.return_date.toVal :=
    fun r hr => mem_travelsPreSort_valid X r ((mem_normalize_trips_iff X r).mp hr)
  constructor
  · intro r hr
    rcases hval r hr with ⟨h1, h2, h3⟩
    exact ⟨hdate _ h1, hdate _ h2, h3⟩
  · intro p hp
    rw [trip_durations, List.zip_map'] at hp
    rcases List.mem_map.mp hp with ⟨r, hr, rfl⟩
    have h3 := (hval r hr).2.2
    simpa using h3

/-- Witness for C4 at a concrete mixed input: the surviving row is fully
valid and its chart entry is non-negative (the inverted-range and
bad-date rows are gone). -/
theorem normalize_trips_dates_valid_witness :
    ((∃ d, (DateField.date (10 : Int)) = DateField.date d)
      ∧ (∃ d, (DateField.date (14 : Int)) = DateField.date d)
      ∧ (DateField.date (10 : Int)).toVal ≤ (DateField.date (14 : Int)).toVal)
    ∧ (0 : Int) ≤ 4 := by
  refine ⟨?_, ?_⟩
  · exact (normalize_trips_dates_valid exMixedTrips).1
      ⟨1, 1, some (str "Paris"), some (str "Unknown"), .date 10, .date 14⟩ (by decide)
  · exact (normalize_trips_dates_valid exMixedTrips).2
      (some (str "Paris"), (4 : Int)) (by decide)

/-! ### Claim C5 -/

/-- C5 (corrected): the chart series the code computes is *not* the
grouped/summed/sorted mapping the spec describes — on two same-destination
trips the code yields one bar per trip ([(Paris, 4), (Paris, 2)]) while
the spec's `duration_by_destination` words demand [(Paris, 6)]. -/
theorem trip_durations_ne_grouped :
    trip_durations exParisTrips ≠ duration_by_destination_spec exParisTrips := by
  decide

/-- C5 (amended): the duration series charted by `show_travels` contains,
in the trip set's own order, exactly one (destination, return −
departure in whole days) entry per trip; same-destination trips are not
grouped or summed and no reordering by total is applied. -/
theorem trip_durations_per_trip (tr : List TravelRow) :
    trip_durations tr =
      tr.map (fun r => (r.destination, r.return_date.toVal - r.departure_date.toVal))
    ∧ (trip_durations tr).length = tr.length := by
  refine ⟨?_, ?_⟩
  · rw [trip_durations, List.zip_map']
  · rw [trip_durations, List.zip_map', List.length_map]

/-! ### Claim C6 -/

/-- C6 (confirmed): a load whose file lacks a required column yields the
schema error, empties exactly the affected entity set and leaves the other
dataset untouched; when the required columns are present the load always
succeeds — there is no other error path, whatever the row contents. -/
theorem load_csv_schema_error (f : TravelersFile) (g : TravelsFile) (s : AppState) :
    (travelersRequiredCols.all (fun c => f.cols.contains c) = false →
        load_travelers_csv f s = ({ s with travelers := [] }, LoadResult.schemaError))
    ∧ (travelersRequiredCols.all (fun c => f.cols.contains c) = true →
        (load_travelers_csv f s).2 = LoadResult.ok)
    ∧ ((load_travelers_csv f s).1.travels = s.travels)
    ∧ (travelsRequiredCols.all (fun c => g.cols.contains c) = false →
        load_travels_csv g s = ({ s with travels := [] }, LoadResult.schemaError))
    ∧ (travelsRequiredCols.all (fun c => g.cols.contains c) = true →
        (load_travels_csv g s).2 = LoadResult.ok)
    ∧ ((load_travels_csv g s).1.travelers = s.travelers) := by
  refine ⟨?_, ?_, ?_, ?_, ?_, ?_⟩
  · intro h
    unfold load_travelers_csv
    rw [h]
    rfl
  · intro h
    unfold load_travelers_csv
    rw [h]
    rfl
  · unfold load_travelers_csv; split <;> rfl
  · intro h
    unfold load_travels_csv
    rw [h]
    rfl
  · intro h
    unfold load_travels_csv
    rw [h]
    rfl
  · unfold load_travels_csv; split <;> rfl

/-- Witness for C6: a travelers file with only a `traveler_id` column and
a travels file with only a `purpose` column each trigger the schema error
and leave the other dataset alone, while a complete header loads fine. -/
theorem load_csv_schema_error_witness :
    load_travelers_csv ⟨[str "traveler_id"], []⟩ exState =
      ({ exState with travelers := [] }, LoadResult.schemaError)
    ∧ load_travels_csv ⟨[str "purpose"], []⟩ exState =
      ({ exState with travels := [] }, LoadResult.schemaError)
    ∧ (load_travelers_csv ⟨travelersRequiredCols, []⟩ exState).2 = LoadResult.ok :=
  ⟨(load_csv_schema_error ⟨[str "traveler_id"], []⟩ ⟨[str "purpose"], []⟩ exState).1
      (by decide),
   (load_csv_schema_error ⟨[str "traveler_id"], []⟩ ⟨[str "purpose"], []⟩ exState).2.2.2.1
      (by decide),
   (load_csv_schema_error ⟨travelersRequiredCols, []⟩ ⟨[str "purpose"], []⟩ exState).2.1
      (by decide)⟩

/-! ### Claim C7 -/

/-- C7 (confirmed): the name lookup is a total function returning `none`
("not found") instead of failing — on the empty traveler set, and whenever
no cleaned name equals the query exactly (case sensitively); an empty
trips lookup likewise returns the empty list; and `show_travels` handles a
failed lookup by leaving the state unchanged (an error dialog, not an
exception). -/
theorem find_traveler_not_found (ts : List TravelerRow) (n : PyStr)
    (tr : List TravelRow) (tid : Nat) (s : AppState) :
    (find_traveler_by_name [] n = none)
    ∧ ((∀ r ∈ ts, r.name ≠ some n) → find_traveler_by_name ts n = none)
    ∧ ((∀ r ∈ tr, r.traveler_id ≠ tid) → trips_for_traveler tr tid = [])
    ∧ (find_traveler_by_name s.travelers s.selected = none → show_travels s = s) := by
  refine ⟨rfl, ?_, ?_, ?_⟩
  · intro h
    rw [find_traveler_by_name, List.filter_eq_nil_iff.mpr (fun r hr => by simpa using h r hr)]
    rfl
  · intro h
    exact List.filter_eq_nil_iff.mpr (fun r hr => by simpa using h r hr)
  · intro h
    unfold show_travels
    split
    · rfl
    · split
      · rfl
      · rw [h]

/-- Witness for C7 at concrete inputs. -/
theorem find_traveler_not_found_witness :
    find_traveler_by_name [⟨1, some (str "Bob"), none, none, none⟩] (str "Alice") = none
    ∧ trips_for_traveler exParisTrips 99 = [] :=
  ⟨(find_traveler_not_found [⟨1, some (str "Bob"), none, none, none⟩] (str "Alice")
      [] 0 exState).2.1 (by decide),
   (find_traveler_not_found [] [] exParisTrips 99 exState).2.2.1 (by decide)⟩

/-! ### Claim C8 -/

/-- C8 (confirmed): `trips_for_traveler` returns exactly the subsequence
of the trip set whose traveler id equals the traveler's id — a sublist of
the input (so the Normalizer's order is preserved), containing a row iff
it is an input row with the matching id — and the empty list, not an
error, when nothing matches. -/
theorem trips_for_traveler_spec (tr : List TravelRow) (t : TravelerRow) :
    (trips_for_traveler tr t.traveler_id).Sublist tr
    ∧ (∀ r, r ∈ trips_for_traveler tr t.traveler_id ↔
        r ∈ tr ∧ r.traveler_id = t.traveler_id)
    ∧ ((∀ r ∈ tr, r.traveler_id ≠ t.traveler_id) →
        trips_for_traveler tr t.traveler_id = []) := by
  refine ⟨List.filter_sublist tr, ?_, ?_⟩
  · intro r
    rw [trips_for_traveler, List.mem_filter]
    simp
  · intro h
    exact List.filter_eq_nil_iff.mpr (fun r hr => by simpa using h r hr)

/-- Witness for C8: no Paris trip belongs to traveler 7. -/
theorem trips_for_traveler_spec_witness :
    trips_for_traveler exParisTrips 7 = [] :=
  (trips_for_traveler_spec exParisTrips ⟨7, none, none, none, none⟩).2.2 (by decide)

/-! ### Claim C9 -/

/-- C9 (confirmed): the `show_travels` transition — the only consumer of
the queries — never changes either entity set: the traveler and trip
collections after it are those before it (the queries themselves are pure
functions of their inputs). -/
theorem show_travels_preserves_data (s : AppState) :
    (show_travels s).travelers = s.travelers ∧ (show_travels s).travels = s.travels := by
  unfold show_travels
  split
  · exact ⟨rfl, rfl⟩
  · split
    · exact ⟨rfl, rfl⟩
    · split
      · exact ⟨rfl, rfl⟩
      · split
        · exact ⟨rfl, rfl⟩
        · exact ⟨rfl, rfl⟩

/-! ### Claim C10 -/

/-- C10 (confirmed): with several travelers sharing the selected name, the
lookup resolves to the first matching row (`.values[0]`), and the records
`show_travels` displays are exactly that first traveler's trips. -/
theorem first_matching_traveler (n : PyStr) (pre post : List TravelerRow)
    (t : TravelerRow) (ht : t.name = some n) (hpre : ∀ r ∈ pre, r.name ≠ some n) :
    find_traveler_by_name (pre ++ t :: post) n = some t
    ∧ (∀ s : AppState, s.travelers = pre ++ t :: post → s.selected = n →
        n ≠ ([] : List Nat) → s.travels ≠ [] →
        (show_travels s).records = trips_for_traveler s.travels t.traveler_id) := by
  have hfind : find_traveler_by_name (pre ++ t :: post) n = some t := by
    rw [find_traveler_by_name, List.filter_append,
      List.filter_eq_nil_iff.mpr (fun r hr => by simpa using hpre r hr),
      List.nil_append, List.filter_cons, if_pos (by simp [ht])]
    rfl
  refine ⟨hfind, ?_⟩
  intro s hts hsel hn htv
  have h1 : ¬ (s.travelers = [] ∨ s.travels = []) := by
    rw [hts]
    simp [htv]
  have h2 : ¬ (s.selected = ([] : List Nat)) := by
    rw [hsel]
    exact hn
  unfold show_travels
  rw [if_neg h1, if_neg h2, hsel, hts, hfind]
  split
  · rename_i heq
    simp at heq
  · rename_i t' heq
    rw [Option.some.injEq] at heq
    subst heq
    split
    · rename_i htt
      simp [htt]
    · rfl

/-- Witness for C10: two travelers named Ann; the lookup picks the one
with id 1 and the displayed records are the trips filtered by id 1. -/
theorem first_matching_traveler_witness :
    find_traveler_by_name
        [⟨1, some (str "Ann"), none, none, none⟩, ⟨2, some (str "Ann"), none, none, none⟩]
        (str "Ann") = some ⟨1, some (str "Ann"), none, none, none⟩
    ∧ (show_travels exDupNameState).records =
        trips_for_traveler exDupNameState.travels 1 := by
  have h := first_matching_traveler (str "Ann") []
    [⟨2, some (str "Ann"), none, none, none⟩] ⟨1, some (str "Ann"), none, none, none⟩
    rfl (by decide)
  exact ⟨h.1, h.2 exDupNameState rfl rfl (by decide) (by decide)⟩
